import Mathlib

/-!
Verification of the batch-partitioning and distance-table subsystem of
`store.locator.py`.

The embedding below follows the Python source closely:

* a resolved store record (the six-element lists produced by
  `fwdGeoLocate`) becomes the structure `Store`;
* the grouping key `store[2][-2::]` becomes `groupKey`;
* the partitioning loop in `main` (lines 48-73) becomes `mainBatchLoop`
  and `mainBatches`;
* the row-rendering loop of `createDistanceTable` (lines 256-287)
  becomes `renderRowsLoop` / `createDistanceTableRows`, with Python's
  `list.index` modelled by `pyIndex` and exceptional control flow
  (IndexError, NameError from an unbound `destinationIndex`) modelled by
  `Option`;
* the waypoint slice `destinations[1:-2]` (line 237) becomes
  `interiorWaypoints`;
* the output-file naming of `buildHTMLPayload` (lines 307-311) becomes
  `outputFilenameFor`, with the glob pattern `key*.html` modelled by
  `globStarHtml`.
-/

namespace StoreLocator

/-- A resolved store record: the six-element list
`[siteID, siteName, address, formattedAddress, lat, lng]` built by
`fwdGeoLocate` (store.locator.py lines 124-136). -/
structure Store where
  siteID : String
  siteName : String
  address : String
  formattedAddress : String
  lat : Int
  lng : Int
deriving DecidableEq

/-- Python's `s[-2::]` on a string: the last two characters (the whole
string when it is shorter than two characters). -/
def lastTwo (s : String) : String := ⟨s.data.drop (s.data.length - 2)⟩

/-- The grouping key of a record, `store[2][-2::]` in the source: the
last two characters of the "Address, City, State" field. -/
def groupKey (s : Store) : String := lastTwo s.address

/-- The body of the partitioning loop in `main` (lines 52-69).
`state` holds the current target state code (initially the falsy `[]`,
modelled as `""`, since the code only ever tests it with `if not state`
and compares it to two-character strings); `locations` is the running
buffer.  Emitting a batch (the consecutive calls to `requestRouteMatrix`
and `buildHTMLPayload`) is modelled by consing the buffer onto the
result.  The final flush at lines 68-69 is the `[]` case. -/
def mainBatchLoop (state : String) (locations : List Store) : List Store → List (List Store)
  | [] => [locations]
  | store :: rest =>
    if state = "" then
      mainBatchLoop (groupKey store) [store] rest
    else if locations.length = 9 then
      locations :: mainBatchLoop state [store] rest
    else if groupKey store = state then
      mainBatchLoop state (locations ++ [store]) rest
    else
      locations :: mainBatchLoop (groupKey store) [store] rest

/-- The batches `main` passes to `requestRouteMatrix`/`buildHTMLPayload`,
in emission order (lines 51-73).  When `len(storesCoords) > 1` the loop
plus final flush runs; otherwise the whole list (possibly empty!) is
passed as a single batch (lines 70-73). -/
def mainBatches (storesCoords : List Store) : List (List Store) :=
  if 1 < storesCoords.length then mainBatchLoop "" [] storesCoords
  else [storesCoords]

/-- The grouping key `buildHTMLPayload` reads from a batch,
`locations[0][2][-2::]` (line 307); `none` models the `IndexError`
raised on an empty batch. -/
def payloadKey (locations : List Store) : Option String :=
  (locations[0]?).map (fun s => lastTwo s.address)

/-- Concatenating everything the loop emits, starting from a buffer,
gives the buffer followed by the remaining input, provided the running
state code and every incoming grouping key are non-empty (so the
initialisation branch `if not state` can never re-fire). -/
lemma mainBatchLoop_flatten (l : List Store) : ∀ (state : String) (locations : List Store),
    state ≠ "" → (∀ s ∈ l, groupKey s ≠ "") →
    (mainBatchLoop state locations l).flatten = locations ++ l := by
  induction l with
  | nil =>
    intro state locations _ _
    simp [mainBatchLoop]
  | cons a t ih =>
    intro state locations hs hl
    have hta : ∀ s ∈ t, groupKey s ≠ "" := fun s hsm => hl s (List.mem_cons_of_mem _ hsm)
    have ha : groupKey a ≠ "" := hl a (List.mem_cons_self _ _)
    simp only [mainBatchLoop, if_neg hs]
    by_cases hlen : locations.length = 9
    · rw [if_pos hlen]
      simp [ih state [a] hs hta]
    · rw [if_neg hlen]
      by_cases hk : groupKey a = state
      · rw [if_pos hk, ih state (locations ++ [a]) hs hta]
        simp
      · rw [if_neg hk]
        simp [ih (groupKey a) [a] ha hta]

/-- C1 (partitioning completeness).  For any input list of records whose
grouping keys are non-empty (every record produced by the parsing stage
has an address of the form "street, city, ST", so its key is two
characters), concatenating the batches `main` emits, in emission order,
reproduces the input exactly — no record is dropped, duplicated or
reordered. -/
theorem partition_complete (l : List Store) (h : ∀ s ∈ l, groupKey s ≠ "") :
    (mainBatches l).flatten = l := by
  unfold mainBatches
  by_cases hl : 1 < l.length
  · rw [if_pos hl]
    cases l with
    | nil => simp at hl
    | cons a t =>
      have ha : groupKey a ≠ "" := h a (List.mem_cons_self _ _)
      have hta : ∀ s ∈ t, groupKey s ≠ "" := fun s hsm => h s (List.mem_cons_of_mem _ hsm)
      have hstep : mainBatchLoop "" [] (a :: t) = mainBatchLoop (groupKey a) [a] t := by
        simp [mainBatchLoop]
      rw [hstep, mainBatchLoop_flatten t (groupKey a) [a] ha hta]
      rfl
  · rw [if_neg hl]
    simp

/-- Every batch the loop emits has between 1 and 9 records, as long as
the running buffer does. -/
lemma mainBatchLoop_sizes (l : List Store) : ∀ (state : String) (locations : List Store),
    1 ≤ locations.length → locations.length ≤ 9 →
    ∀ b ∈ mainBatchLoop state locations l, 1 ≤ b.length ∧ b.length ≤ 9 := by
  induction l with
  | nil =>
    intro state locations h1 h9 b hb
    simp [mainBatchLoop] at hb
    subst hb
    exact ⟨h1, h9⟩
  | cons a t ih =>
    intro state locations h1 h9 b hb
    simp only [mainBatchLoop] at hb
    by_cases hs : state = ""
    · rw [if_pos hs] at hb
      exact ih _ _ (by simp) (by simp) b hb
    · rw [if_neg hs] at hb
      by_cases hlen : locations.length = 9
      · rw [if_pos hlen] at hb
        rcases List.mem_cons.mp hb with h | h
        · subst h; exact ⟨h1, h9⟩
        · exact ih _ _ (by simp) (by simp) b h
      · rw [if_neg hlen] at hb
        by_cases hk : groupKey a = state
        · rw [if_pos hk] at hb
          refine ih _ _ ?_ ?_ b hb
          · simp [List.length_append]
          · simp only [List.length_append, List.length_singleton]
            omega
        · rw [if_neg hk] at hb
          rcases List.mem_cons.mp hb with h | h
          · subst h; exact ⟨h1, h9⟩
          · exact ih _ _ (by simp) (by simp) b h

/-- C2, amended (batch size bound).  For every *non-empty* input, every
batch `main` passes to `requestRouteMatrix`/`buildHTMLPayload` has
between 1 and 9 records.  (The empty input is the exception the
counterexample exhibits: it is passed through whole as a single empty
batch by the `else` branch at lines 70-73.) -/
theorem batch_size_bound (l : List Store) (hne : l ≠ []) :
    ∀ b ∈ mainBatches l, 1 ≤ b.length ∧ b.length ≤ 9 := by
  unfold mainBatches
  by_cases hl : 1 < l.length
  · rw [if_pos hl]
    cases l with
    | nil => simp at hl
    | cons a t =>
      intro b hb
      have hstep : mainBatchLoop "" [] (a :: t) = mainBatchLoop (groupKey a) [a] t := by
        simp [mainBatchLoop]
      rw [hstep] at hb
      exact mainBatchLoop_sizes t (groupKey a) [a] (by simp) (by simp) b hb
  · rw [if_neg hl]
    intro b hb
    simp only [List.mem_singleton] at hb
    rw [hb]
    have hlen : l.length = 1 := by
      cases l with
      | nil => exact absurd rfl hne
      | cons a t =>
        cases t with
        | nil => rfl
        | cons c u => exact absurd (by simp) hl
    omega

/-- C2 counterexample.  On the empty input the code does not keep the
1..9 bound: the `else` branch of `main` (lines 70-73) passes the empty
list itself to `requestRouteMatrix` and `buildHTMLPayload` as one batch
of size 0. -/
theorem batch_size_counterexample :
    [] ∈ mainBatches ([] : List Store) ∧ ([] : List Store).length = 0 := by
  decide

/-- C4 counterexample.  An empty input sequence does not yield zero
batches: `mainBatches [] = [[]]`, so one distance-matrix request is made
(with an empty location list). -/
theorem empty_input_counterexample : mainBatches ([] : List Store) ≠ [] := by
  decide

/-- C4, amended.  The partitioner never rejects its input, but an empty
input yields exactly one batch, which is empty; that batch is passed to
`requestRouteMatrix` (an empty-destination request) and to
`buildHTMLPayload`, whose filename computation `locations[0][2][-2::]`
then fails (IndexError, modelled by `none`), so no report is written. -/
theorem empty_input_amended :
    mainBatches ([] : List Store) = [[]] ∧ payloadKey ([] : List Store) = none := by
  constructor <;> rfl

/-- Helper for concrete instances: a record whose address (and formatted
address) is the given string. -/
def mkStore (id addr : String) : Store := ⟨id, "", addr, addr, 0, 0⟩

/-- Nine records with grouping key "CA". -/
def caStores : List Store :=
  [mkStore "c1" "CA", mkStore "c2" "CA", mkStore "c3" "CA",
   mkStore "c4" "CA", mkStore "c5" "CA", mkStore "c6" "CA",
   mkStore "c7" "CA", mkStore "c8" "CA", mkStore "c9" "CA"]

/-- First record with grouping key "NY". -/
def nStore1 : Store := mkStore "n1" "NY"

/-- Second record with grouping key "NY". -/
def nStore2 : Store := mkStore "n2" "NY"

/-- Nine CA records followed by two NY records: the size cap fires
exactly when the grouping key changes. -/
def exEleven : List Store := caStores ++ [nStore1, nStore2]

/-- The worked example of the spec: eleven CA records then three NY
records. -/
def exFourteen : List Store :=
  caStores ++ [mkStore "c10" "CA", mkStore "c11" "CA",
               mkStore "n1" "NY", mkStore "n2" "NY", mkStore "n3" "NY"]

/-- C1 witness: on the spec's worked example (11 CA then 3 NY records)
the emitted batches concatenate back to the input. -/
theorem partition_complete_witness :
    (mainBatches exFourteen).flatten = exFourteen :=
  partition_complete exFourteen (by decide)

/-- C2 witness: the input of the spec's worked example is non-empty and
its first emitted batch (the nine CA records) respects the 1..9 bound. -/
theorem batch_size_bound_witness :
    exFourteen ≠ [] ∧ 1 ≤ caStores.length ∧ caStores.length ≤ 9 :=
  ⟨by decide, batch_size_bound exFourteen (by decide) caStores (by decide)⟩

/-- C3 counterexample.  When the buffer holds nine CA records and the
next two records are both NY, the code emits the CA batch, restarts the
buffer with the first NY record but leaves `state` at "CA" (line 59 has
no `state =` assignment, unlike line 65).  The second NY record, whose
key equals the first's, therefore forces an additional boundary: the
batches are `[CA*9], [n1], [n2]` instead of the claimed `[CA*9], [n1, n2]`. -/
theorem sizecap_counterexample :
    groupKey nStore1 = groupKey nStore2 ∧
    mainBatches exEleven = [caStores, [nStore1], [nStore2]] := by
  decide

/-- C3, amended.  When the running batch has reached MAX_BATCH_SIZE and
a record `r` with a key different from the accumulating key arrives, the
partitioner emits the buffer and restarts with `[r]` but keeps the *old*
accumulating key; hence a record `r'` that follows `r` with `r`'s own
key is not appended to `r`'s batch — it forces `[r]` out as an
additional singleton batch. -/
theorem sizecap_keeps_previous_key (state : String) (locations : List Store)
    (r r' : Store) (rest : List Store)
    (hs : state ≠ "") (hlen : locations.length = 9)
    (hr : groupKey r ≠ state) (hr' : groupKey r' = groupKey r) :
    mainBatchLoop state locations (r :: r' :: rest) =
      locations :: [r] :: mainBatchLoop (groupKey r') [r'] rest := by
  have h2 : ¬ (groupKey r' = state) := by rw [hr']; exact hr
  simp only [mainBatchLoop, if_neg hs, if_pos hlen, List.length_singleton]
  rw [if_neg (by decide : ¬ ((1 : Nat) = 9)), if_neg h2]

/-- C3 witness: the amended transition evaluated on the concrete CA/NY
instance. -/
theorem sizecap_keeps_previous_key_witness :
    mainBatchLoop "CA" caStores (nStore1 :: nStore2 :: []) =
      caStores :: [nStore1] :: mainBatchLoop (groupKey nStore2) [nStore2] [] :=
  sizecap_keeps_previous_key "CA" caStores nStore1 nStore2 []
    (by decide) (by decide) (by decide) (by decide)

/-- One cell of the distance matrix: the `distance.text` and
`duration.text` fields read at lines 279-282. -/
structure MatrixElement where
  distanceText : String
  durationText : String
deriving DecidableEq

/-- One body row of the rendered table: the row-header location
(`locations[x]`, lines 263-267) and the data cells, which are the
elements of the matrix row selected for it, in the order the response
lists them (lines 277-283). -/
structure RenderedRow where
  origin : Store
  cells : List MatrixElement
deriving DecidableEq

/-- Python's `list.index(a)` on a list of strings: the index of the
first occurrence, `none` for the `ValueError` raised when absent
(line 271). -/
def pyIndex (l : List String) (a : String) : Option Nat :=
  match l with
  | [] => none
  | b :: rest => if b = a then some 0 else (pyIndex rest a).map (· + 1)

/-- The value `destinationIndex` holds after the `try/except` at lines
270-273: the fresh lookup result when the lookup succeeds, otherwise
whatever the variable held before (`none` models "never assigned", the
`NameError` case). -/
def resolveIdx (found lastIdx : Option Nat) : Option Nat :=
  match found with
  | some i => some i
  | none => lastIdx

/-- The data-row loop of `createDistanceTable` (lines 258-285).  It
iterates over the response's `destination_addresses` (line 261), with
`x` counting iterations; each iteration reads the row-header location
`locations[x]` (IndexError when out of range, modelled by `none`),
resolves `destinationIndex` per `resolveIdx`, reads
`rows[destinationIndex]` (NameError/IndexError modelled by `none`) and
renders every element of that row, in the row's own order, as the data
cells. -/
def renderRowsLoop (locations : List Store) (destinations : List String)
    (rows : List (List MatrixElement)) :
    Nat → Option Nat → List String → Option (List RenderedRow)
  | _, _, [] => some []
  | x, lastIdx, _ :: ds =>
    match locations[x]? with
    | none => none
    | some loc =>
      match resolveIdx (pyIndex destinations loc.formattedAddress) lastIdx with
      | none => none
      | some idx =>
        match rows[idx]? with
        | none => none
        | some row =>
          match renderRowsLoop locations destinations rows (x + 1) (some idx) ds with
          | none => none
          | some tail => some (⟨loc, row⟩ :: tail)

/-- The body rows `createDistanceTable` renders for a batch and a matrix
response: the loop starting at `x = 0` with `destinationIndex` not yet
bound. -/
def createDistanceTableRows (locations : List Store) (destinations : List String)
    (rows : List (List MatrixElement)) : Option (List RenderedRow) :=
  renderRowsLoop locations destinations rows 0 none destinations

/-- The row the renderer is expected to produce for batch position `k`
when nothing fails at that position: row header `locations[k]`, cells
from `rows[i]` where `i` is the first occurrence of `locations[k]`'s
formatted address in the destination list. -/
def expectedRow (locations : List Store) (destinations : List String)
    (rows : List (List MatrixElement)) (k : Nat) : Option RenderedRow :=
  match locations[k]? with
  | none => none
  | some loc =>
    match pyIndex destinations loc.formattedAddress with
    | none => none
    | some i =>
      match rows[i]? with
      | none => none
      | some row => some ⟨loc, row⟩

/-- `pyIndex` returns the index of the first occurrence: the element
there is the one sought and no earlier position holds it. -/
lemma pyIndex_first (l : List String) (a : String) : ∀ i, pyIndex l a = some i →
    l[i]? = some a ∧ ∀ j, j < i → l[j]? ≠ some a := by
  induction l with
  | nil => intro i h; simp [pyIndex] at h
  | cons b t ih =>
    intro i h
    simp only [pyIndex] at h
    by_cases hb : b = a
    · rw [if_pos hb] at h
      cases h
      subst hb
      exact ⟨by simp, fun j hj => absurd hj (Nat.not_lt_zero j)⟩
    · rw [if_neg hb] at h
      cases hp : pyIndex t a with
      | none => rw [hp] at h; simp at h
      | some k =>
        rw [hp] at h
        simp only [Option.map_some'] at h
        cases h
        obtain ⟨h1, h2⟩ := ih k hp
        refine ⟨by simpa using h1, fun j hj => ?_⟩
        cases j with
        | zero =>
          simp only [List.getElem?_cons_zero]
          intro hc
          exact hb (Option.some.inj hc)
        | succ m =>
          simp only [List.getElem?_cons_succ]
          exact h2 m (Nat.lt_of_succ_lt_succ hj)

/-- When every iteration can resolve its row (header location present,
address found, matrix row present), the loop succeeds and produces, for
each remaining destination entry, exactly the expected row. -/
lemma renderRowsLoop_spec (locations : List Store) (destinations : List String)
    (rows : List (List MatrixElement)) :
    ∀ (ds : List String) (x : Nat) (lastIdx : Option Nat),
    (∀ k, k < ds.length → (expectedRow locations destinations rows (x + k)).isSome) →
    ∃ out, renderRowsLoop locations destinations rows x lastIdx ds = some out ∧
      out.length = ds.length ∧
      ∀ k, k < ds.length → out[k]? = expectedRow locations destinations rows (x + k) := by
  intro ds
  induction ds with
  | nil =>
    intro x lastIdx _
    exact ⟨[], rfl, rfl, fun k hk => absurd hk (Nat.not_lt_zero k)⟩
  | cons d ds ih =>
    intro x lastIdx h
    have h0 : (expectedRow locations destinations rows (x + 0)).isSome := h 0 (by simp)
    rw [Nat.add_zero] at h0
    cases hloc : locations[x]? with
    | none => simp [expectedRow, hloc] at h0
    | some loc =>
      cases hidx : pyIndex destinations loc.formattedAddress with
      | none => simp [expectedRow, hloc, hidx] at h0
      | some i =>
        cases hrow : rows[i]? with
        | none => simp [expectedRow, hloc, hidx, hrow] at h0
        | some row =>
          obtain ⟨out', hout', hlen', hget'⟩ := ih (x + 1) (some i) (fun k hk => by
            have := h (k + 1) (by simpa using Nat.succ_lt_succ hk)
            rwa [show x + (k + 1) = x + 1 + k by omega] at this)
          have hres : resolveIdx (pyIndex destinations loc.formattedAddress) lastIdx
              = some i := by rw [hidx]; rfl
          refine ⟨⟨loc, row⟩ :: out', ?_, by simp [hlen'], ?_⟩
          · simp only [renderRowsLoop, hloc, hres, hrow, hout']
          · intro k hk
            cases k with
            | zero =>
              simp only [List.getElem?_cons_zero, Nat.add_zero]
              simp [expectedRow, hloc, hidx, hrow]
            | succ m =>
              simp only [List.getElem?_cons_succ]
              rw [show x + (m + 1) = x + 1 + m by omega]
              exact hget' m (Nat.lt_of_succ_lt_succ hk)

/-- When more destination entries remain than the batch has locations
(and every iteration up to the end of the batch resolves), the loop
eventually reads `locations[x]` out of range and the rendering fails. -/
lemma renderRowsLoop_none (locations : List Store) (destinations : List String)
    (rows : List (List MatrixElement)) :
    ∀ (ds : List String) (x : Nat) (lastIdx : Option Nat),
    (∀ j, j < ds.length → x + j < locations.length →
      (expectedRow locations destinations rows (x + j)).isSome) →
    x ≤ locations.length → locations.length < x + ds.length →
    renderRowsLoop locations destinations rows x lastIdx ds = none := by
  intro ds
  induction ds with
  | nil =>
    intro x lastIdx _ hx hlen
    exfalso
    simp only [List.length_nil, Nat.add_zero] at hlen
    omega
  | cons d ds ih =>
    intro x lastIdx h hx hlen
    by_cases hxl : x < locations.length
    · have h0 := h 0 (by simp) (by simpa using hxl)
      rw [Nat.add_zero] at h0
      cases hloc : locations[x]? with
      | none => simp [expectedRow, hloc] at h0
      | some loc =>
        cases hidx : pyIndex destinations loc.formattedAddress with
        | none => simp [expectedRow, hloc, hidx] at h0
        | some i =>
          cases hrow : rows[i]? with
          | none => simp [expectedRow, hloc, hidx, hrow] at h0
          | some row =>
            have hres : resolveIdx (pyIndex destinations loc.formattedAddress) lastIdx
                = some i := by rw [hidx]; rfl
            have hrec : renderRowsLoop locations destinations rows (x + 1) (some i) ds
                = none := by
              refine ih (x + 1) (some i) (fun j hj hjl => ?_) (by omega) (by
                simp only [List.length_cons] at hlen; omega)
              have := h (j + 1) (by simpa using Nat.succ_lt_succ hj) (by omega)
              rwa [show x + (j + 1) = x + 1 + j by omega] at this
            simp only [renderRowsLoop, hloc, hres, hrow, hrec]
    · have hloc : locations[x]? = none := List.getElem?_eq_none (by omega)
      simp only [renderRowsLoop, hloc]

/-- C10 (matrix-driven body rows).  Part one: when every destination
entry resolves, the renderer emits exactly one body row per entry of
`destination_addresses`, the row at position `k` carrying `locations[k]`
as its header, and no rows beyond that (so when the response is shorter
than the batch the trailing batch locations get no row).  Part two: when
the response lists more destinations than the batch has locations (all
in-batch iterations resolving), rendering fails — the IndexError from
`locations[x]` at lines 263-266, modelled by `none`. -/
theorem matrix_driven_row_count (locations : List Store) (destinations : List String)
    (rows : List (List MatrixElement)) :
    ((∀ k, k < destinations.length → (expectedRow locations destinations rows k).isSome) →
      ∃ out, createDistanceTableRows locations destinations rows = some out ∧
        out.length = destinations.length ∧
        (∀ k, k < destinations.length → (out[k]?).map RenderedRow.origin = locations[k]?) ∧
        (∀ k, destinations.length ≤ k → out[k]? = none)) ∧
    (locations.length < destinations.length →
      (∀ k, k < locations.length → (expectedRow locations destinations rows k).isSome) →
      createDistanceTableRows locations destinations rows = none) := by
  constructor
  · intro h
    obtain ⟨out, hout, hlen, hget⟩ :=
      renderRowsLoop_spec locations destinations rows destinations 0 none
        (fun k hk => by simpa using h k hk)
    refine ⟨out, hout, hlen, ?_, ?_⟩
    · intro k hk
      have hk' := h k hk
      have hek := hget k hk
      rw [Nat.zero_add] at hek
      rw [hek]
      cases hloc : locations[k]? with
      | none => simp [expectedRow, hloc] at hk'
      | some loc =>
        cases hidx : pyIndex destinations loc.formattedAddress with
        | none => simp [expectedRow, hloc, hidx] at hk'
        | some i =>
          cases hrow : rows[i]? with
          | none => simp [expectedRow, hloc, hidx, hrow] at hk'
          | some row => simp [expectedRow, hloc, hidx, hrow]
    · intro k hk
      exact List.getElem?_eq_none (by omega)
  · intro hlt h
    exact renderRowsLoop_none locations destinations rows destinations 0 none
      (fun j _ hjl => by simpa using h j (by simpa using hjl))
      (Nat.zero_le _) (by omega)

/-- C5 (first-match row lookup).  When every destination entry resolves,
the row the renderer selects for the location at batch position `x` is
`rows[i]` where `i` is the index of the *first* occurrence of that
location's formatted address in `destinationAddresses`; consequently any
other location of the batch with the identical formatted-address string
is rendered from that same first-matching row. -/
theorem first_match_row_lookup (locations : List Store) (destinations : List String)
    (rows : List (List MatrixElement))
    (h : ∀ k, k < destinations.length → (expectedRow locations destinations rows k).isSome)
    (x : Nat) (hx : x < destinations.length)
    (lx : Store) (hlx : locations[x]? = some lx)
    (i : Nat) (hi : pyIndex destinations lx.formattedAddress = some i)
    (row : List MatrixElement) (hrow : rows[i]? = some row) :
    (destinations[i]? = some lx.formattedAddress ∧
      ∀ j, j < i → destinations[j]? ≠ some lx.formattedAddress) ∧
    ∃ out, createDistanceTableRows locations destinations rows = some out ∧
      out.length = destinations.length ∧
      out[x]? = some ⟨lx, row⟩ ∧
      ∀ y ly, y < destinations.length → locations[y]? = some ly →
        ly.formattedAddress = lx.formattedAddress → out[y]? = some ⟨ly, row⟩ := by
  obtain ⟨out, hout, hlen, hget⟩ :=
    renderRowsLoop_spec locations destinations rows destinations 0 none
      (fun k hk => by simpa using h k hk)
  refine ⟨pyIndex_first destinations lx.formattedAddress i hi, out, hout, hlen, ?_, ?_⟩
  · have hek := hget x hx
    rw [Nat.zero_add] at hek
    rw [hek]
    simp [expectedRow, hlx, hi, hrow]
  · intro y ly hy hly heq
    have hek := hget y hy
    rw [Nat.zero_add] at hek
    rw [hek]
    simp [expectedRow, hly, heq, hi, hrow]

/-- C6, amended (lookup-failure continuation).  When a location's
formatted address is not found among the destinations, the `except`
branch at lines 272-273 leaves `destinationIndex` untouched: if a
previous iteration resolved some index `i`, the row is rendered from
`rows[i]` (the stale index) and iteration continues; but when the very
*first* location's lookup fails there is no previously resolved index,
`rows[destinationIndex]` raises NameError (line 276 with the variable
unbound) and rendering fails instead of producing a row. -/
theorem lookup_miss_behavior (locations : List Store) (destinations : List String)
    (rows : List (List MatrixElement)) (x : Nat) (loc : Store) (i : Nat)
    (row : List MatrixElement) (d : String) (ds : List String)
    (hloc : locations[x]? = some loc)
    (hmiss : pyIndex destinations loc.formattedAddress = none) :
    renderRowsLoop locations destinations rows x none (d :: ds) = none ∧
    (rows[i]? = some row →
      renderRowsLoop locations destinations rows x (some i) (d :: ds) =
        (renderRowsLoop locations destinations rows (x + 1) (some i) ds).map
          (fun tail => ⟨loc, row⟩ :: tail)) := by
  constructor
  · have hres : resolveIdx (pyIndex destinations loc.formattedAddress) none = none := by
      rw [hmiss]; rfl
    simp only [renderRowsLoop, hloc, hres]
  · intro hrow
    have hres : resolveIdx (pyIndex destinations loc.formattedAddress) (some i) = some i := by
      rw [hmiss]; rfl
    simp only [renderRowsLoop, hloc, hres, hrow]
    cases hrec : renderRowsLoop locations destinations rows (x + 1) (some i) ds <;>
      simp [hrec]

/-- Helper for concrete matrix cells. -/
def elM (d t : String) : MatrixElement := ⟨d, t⟩

/-- A record whose formatted address is "P". -/
def storeP : Store := mkStore "s0" "P"

/-- A record whose formatted address is "Q". -/
def storeQ : Store := mkStore "s1" "Q"

/-- A matrix response whose destination order is `["Q", "P"]` — the
reverse of the batch order `[storeP, storeQ]`.  Cell `XY` stands for the
measurement from origin `X` to destination `Y`. -/
def permRows : List (List MatrixElement) :=
  [[elM "QQ" "QQ", elM "QP" "QP"], [elM "PQ" "PQ", elM "PP" "PP"]]

/-- Two records sharing the identical formatted address "P". -/
def storeD0 : Store := mkStore "d0" "P"

/-- Second record with the identical formatted address "P". -/
def storeD1 : Store := mkStore "d1" "P"

/-- A 2x2 matrix response for the duplicate-address batch. -/
def dupRows : List (List MatrixElement) :=
  [[elM "r0c0" "r0c0", elM "r0c1" "r0c1"], [elM "r1c0" "r1c0", elM "r1c1" "r1c1"]]

/-- C5 witness: in a batch of two locations with the identical formatted
address "P" (destinations `["P", "P"]`), both body rows are rendered
from `rows[0]`, the first-matching row — the second location's own row
`rows[1]` is never used. -/
theorem first_match_row_lookup_witness :
    createDistanceTableRows [storeD0, storeD1] ["P", "P"] dupRows =
      some [⟨storeD0, [elM "r0c0" "r0c0", elM "r0c1" "r0c1"]⟩,
            ⟨storeD1, [elM "r0c0" "r0c0", elM "r0c1" "r0c1"]⟩] := by
  obtain ⟨-, out, hout, hlen, hx0, hdup⟩ :=
    first_match_row_lookup [storeD0, storeD1] ["P", "P"] dupRows (by decide)
      0 (by decide) storeD0 (by decide) 0 (by decide)
      [elM "r0c0" "r0c0", elM "r0c1" "r0c1"] (by decide)
  have h1 : out[1]? = some ⟨storeD1, [elM "r0c0" "r0c0", elM "r0c1" "r0c1"]⟩ :=
    hdup 1 storeD1 (by decide) (by decide) (by decide)
  have hout2 : out = [⟨storeD0, [elM "r0c0" "r0c0", elM "r0c1" "r0c1"]⟩,
      ⟨storeD1, [elM "r0c0" "r0c0", elM "r0c1" "r0c1"]⟩] := by
    apply List.ext_getElem?
    intro n
    match n with
    | 0 => rw [hx0]; rfl
    | 1 => rw [h1]; rfl
    | (n + 2) =>
      rw [List.getElem?_eq_none (by rw [hlen]; simp),
        List.getElem?_eq_none (by simp)]
  rw [hout, hout2]

/-- C6 counterexample.  A batch whose very first location's formatted
address ("AB") is absent from the destinations (`["ZZ"]`): the claim
says the renderer logs the miss and still renders the row, but the code
reaches `rows[destinationIndex]` with `destinationIndex` never assigned
(NameError) and rendering fails — no row is produced at all. -/
theorem first_miss_counterexample :
    createDistanceTableRows [mkStore "s1" "AB"] ["ZZ"] [[elM "1 mi" "1 hr"]] = none := by
  decide

/-- C6 witness: the amended behavior on concrete inputs — with no
previously resolved index the single-iteration render fails, and with
previously resolved index 0 the miss renders the row from `rows[0]`. -/
theorem lookup_miss_behavior_witness :
    renderRowsLoop [mkStore "s1" "AB"] ["ZZ"] [[elM "1 mi" "1 hr"]] 0 none ["ZZ"] = none ∧
    renderRowsLoop [mkStore "s1" "AB"] ["ZZ"] [[elM "1 mi" "1 hr"]] 0 (some 0) ["ZZ"] =
      (renderRowsLoop [mkStore "s1" "AB"] ["ZZ"] [[elM "1 mi" "1 hr"]] 1 (some 0) []).map
        (fun tail => ⟨mkStore "s1" "AB", [elM "1 mi" "1 hr"]⟩ :: tail) := by
  have h := lookup_miss_behavior [mkStore "s1" "AB"] ["ZZ"] [[elM "1 mi" "1 hr"]]
    0 (mkStore "s1" "AB") 0 [elM "1 mi" "1 hr"] "ZZ" []
    (by decide) (by decide)
  exact ⟨h.1, h.2 (by decide)⟩

/-- C8 counterexample.  Batch `[storeP, storeQ]` (distinct addresses),
matrix response listing destinations in the reverse order `["Q", "P"]`.
The rendered row for `storeP` keeps the response's cell order
`[PQ, PP]`: the cell at `storeP`'s own batch column (position 0) is the
measurement to destination Q, not the self-measurement PP — so the data
cells are ordered by the response's destination order, not the batch
order, and the self-measurement is not under the location's own column. -/
theorem rowcol_counterexample :
    createDistanceTableRows [storeP, storeQ] ["Q", "P"] permRows =
      some [⟨storeP, [elM "PQ" "PQ", elM "PP" "PP"]⟩,
            ⟨storeQ, [elM "QQ" "QQ", elM "QP" "QP"]⟩] ∧
    elM "PQ" "PQ" ≠ elM "PP" "PP" := by
  decide

/-- C8, amended.  The data cells of a rendered body row are exactly the
elements of the selected matrix row, in the response's own destination
order (the loop at lines 277-283 copies `row` verbatim): the rendered
cells for the location at position `x` equal `rows[i]` where `i` is the
position of that location's address in `destinationAddresses`, so the
self-measurement sits at cell position `i`, which coincides with the
location's own batch column only when the response lists the batch's
addresses in batch order. -/
theorem cells_follow_response_order (locations : List Store) (destinations : List String)
    (rows : List (List MatrixElement))
    (h : ∀ k, k < destinations.length → (expectedRow locations destinations rows k).isSome)
    (x : Nat) (hx : x < destinations.length)
    (lx : Store) (hlx : locations[x]? = some lx)
    (i : Nat) (hi : pyIndex destinations lx.formattedAddress = some i)
    (row : List MatrixElement) (hrow : rows[i]? = some row) :
    destinations[i]? = some lx.formattedAddress ∧
    ∃ out, createDistanceTableRows locations destinations rows = some out ∧
      (out[x]?).map RenderedRow.cells = some row := by
  obtain ⟨out, hout, hlen, hget⟩ :=
    renderRowsLoop_spec locations destinations rows destinations 0 none
      (fun k hk => by simpa using h k hk)
  refine ⟨(pyIndex_first destinations lx.formattedAddress i hi).1, out, hout, ?_⟩
  have hek := hget x hx
  rw [Nat.zero_add] at hek
  rw [hek]
  simp [expectedRow, hlx, hi, hrow]

/-- C8 witness: the amended statement at the reversed-destination
instance: `storeP`'s cells are `rows[1]` verbatim, and position 1 is
where "P" occurs among the destinations. -/
theorem cells_follow_response_order_witness :
    (["Q", "P"] : List String)[1]? = some storeP.formattedAddress ∧
    (createDistanceTableRows [storeP, storeQ] ["Q", "P"] permRows).map
      (fun out => (out[0]?).map RenderedRow.cells)
      = some (some [elM "PQ" "PQ", elM "PP" "PP"]) := by
  obtain ⟨hpos, out, hout, hcells⟩ :=
    cells_follow_response_order [storeP, storeQ] ["Q", "P"] permRows (by decide)
      0 (by decide) storeP (by decide) 1 (by decide)
      [elM "PQ" "PQ", elM "PP" "PP"] (by decide)
  refine ⟨hpos, ?_⟩
  rw [hout]
  simpa using hcells

/-- C10 witness: on the reversed-destination instance the renderer
yields exactly two body rows (one per destination entry), and on a batch
of one location with a two-destination response it fails. -/
theorem matrix_driven_row_count_witness :
    (createDistanceTableRows [storeP, storeQ] ["Q", "P"] permRows).map List.length
      = some 2 ∧
    createDistanceTableRows [storeP] ["P", "Q"] [[elM "a" "a", elM "b" "b"]] = none := by
  constructor
  · obtain ⟨out, hout, hlen, -, -⟩ :=
      (matrix_driven_row_count [storeP, storeQ] ["Q", "P"] permRows).1 (by decide)
    rw [hout]
    simpa using hlen
  · exact (matrix_driven_row_count [storeP] ["P", "Q"] [[elM "a" "a", elM "b" "b"]]).2
      (by decide) (by decide)

/-- The interior waypoints of the optimized-route link: the Python slice
`destinations[1:-2]` at line 237 — everything strictly after the first
entry and strictly before the last two. -/
def interiorWaypoints (destinations : List String) : List String :=
  (destinations.drop 1).take (destinations.length - 3)

/-- C7 counterexample.  For the five destinations `[A, B, C, D, E]` the
slice `destinations[1:-2]` yields `[B, C]`, not the `[A, B, C]`
("destinations excluding the last two") the claim specifies: the first
destination is excluded as well. -/
theorem waypoints_counterexample :
    interiorWaypoints ["A", "B", "C", "D", "E"] = ["B", "C"] ∧
    interiorWaypoints ["A", "B", "C", "D", "E"] ≠ ["A", "B", "C"] := by
  decide

/-- C7, amended.  For more than two destinations, the interior waypoints
are the destinations excluding the *first* entry and the last two,
joined in their original order: for `first :: mid ++ [y, z]` the slice
is exactly `mid` (so for `[A, B, C, D, E]` it is `[B, C]`). -/
theorem waypoints_amended (first y z : String) (mid : List String) :
    interiorWaypoints (first :: (mid ++ [y, z])) = mid := by
  unfold interiorWaypoints
  have h1 : (first :: (mid ++ [y, z])).drop 1 = mid ++ [y, z] := rfl
  have h2 : (first :: (mid ++ [y, z])).length - 3 = mid.length := by
    simp only [List.length_cons, List.length_append, List.length_nil]
    omega
  rw [h1, h2, List.take_left]

/-- The glob pattern `key*.html` of line 310 applied to a file name:
`key` is a prefix, `.html` is a suffix, and the name is long enough that
the two do not overlap. -/
def globStarHtml (key f : String) : Bool :=
  key.data.isPrefixOf f.data && (".html").data.isSuffixOf f.data &&
    decide (key.length + 5 ≤ f.length)

/-- The report filename `buildHTMLPayload` chooses (lines 307-311),
given the listing of the output directory: `key-0.html` when that name
is not taken, otherwise `key-` followed by the number of existing files
matching `key*.html`. -/
def outputFilenameFor (existing : List String) (key : String) : String :=
  if (key ++ "-0.html") ∈ existing then
    key ++ "-" ++ toString (existing.filter (fun f => globStarHtml key f)).length ++ ".html"
  else key ++ "-0.html"

/-- C9 counterexample.  With pre-existing reports `CA-0.html` and
`CA-2.html` (a non-contiguous suffix set, as the spec itself allows for
prior partial runs), the count of matching files is 2, so the chosen
name `CA-2.html` *is* an existing report artifact and writing it
overwrites the earlier report. -/
theorem naming_counterexample :
    outputFilenameFor ["CA-0.html", "CA-2.html"] "CA" = "CA-2.html" ∧
    "CA-2.html" ∈ ["CA-0.html", "CA-2.html"] := by
  constructor
  · rfl
  · decide

/-- A list is a Boolean prefix of itself followed by anything. -/
lemma isPrefixOf_append_self {α : Type} [BEq α] [LawfulBEq α] (l t : List α) :
    l.isPrefixOf (l ++ t) = true := by
  induction l with
  | nil => simp [List.isPrefixOf]
  | cons a as ih => simp [List.isPrefixOf, ih]

/-- A list is a Boolean suffix of anything followed by itself. -/
lemma isSuffixOf_append_self {α : Type} [BEq α] [LawfulBEq α] (l t : List α) :
    l.isSuffixOf (t ++ l) = true := by
  unfold List.isSuffixOf
  rw [List.reverse_append]
  exact isPrefixOf_append_self l.reverse t.reverse

/-- Any name of the shape `key ++ "-" ++ mid ++ ".html"` matches the
glob pattern `key*.html`. -/
lemma globStarHtml_shape (key mid : String) :
    globStarHtml key (key ++ "-" ++ mid ++ ".html") = true := by
  simp only [globStarHtml, Bool.and_eq_true, decide_eq_true_eq]
  refine ⟨⟨?_, ?_⟩, ?_⟩
  · rw [String.data_append, String.data_append, String.data_append,
      List.append_assoc, List.append_assoc]
    exact isPrefixOf_append_self _ _
  · rw [String.data_append]
    exact isSuffixOf_append_self _ _
  · rw [String.length_append, String.length_append, String.length_append]
    have h5 : (".html").length = 5 := rfl
    omega

/-- The concrete first choice `key ++ "-0.html"` matches `key*.html`. -/
lemma globStarHtml_dash0 (key : String) :
    globStarHtml key (key ++ "-0.html") = true := by
  have h : key ++ "-0.html" = key ++ "-" ++ "0" ++ ".html" := by
    rw [String.append_assoc, String.append_assoc]
    rfl
  rw [h]
  exact globStarHtml_shape key "0"

/-- Left cancellation for string concatenation. -/
lemma string_append_left_cancel {s t u : String} (h : s ++ t = s ++ u) : t = u := by
  have hd := congrArg String.data h
  rw [String.data_append, String.data_append] at hd
  exact String.ext (List.append_cancel_left hd)

/-- C9, amended.  The suffix is the count of already-existing matching
reports, and the scheme avoids overwriting only when the pre-existing
suffixes for the key are contiguous from 0: in particular, starting from
a directory with no report for the key, writing one batch picks a fresh
name, and writing a second batch with the same grouping key picks
another fresh name — but with a non-contiguous pre-existing set the
chosen name can collide (see the counterexample). -/
theorem naming_amended (d : List String) (key : String)
    (hclean : d.filter (fun f => globStarHtml key f) = []) :
    outputFilenameFor d key ∉ d ∧
    outputFilenameFor (outputFilenameFor d key :: d) key ∉ (outputFilenameFor d key :: d) := by
  have hnod : ∀ f ∈ d, ¬ (globStarHtml key f = true) :=
    List.filter_eq_nil_iff.mp hclean
  have h0 : (key ++ "-0.html") ∉ d := fun hmem =>
    hnod _ hmem (globStarHtml_dash0 key)
  have hc1 : outputFilenameFor d key = key ++ "-0.html" := by
    unfold outputFilenameFor
    rw [if_neg h0]
  constructor
  · rw [hc1]
    exact h0
  · rw [hc1]
    have hmem0 : (key ++ "-0.html") ∈ (key ++ "-0.html") :: d :=
      List.mem_cons_self _ _
    have hfilter : ((key ++ "-0.html") :: d).filter (fun f => globStarHtml key f)
        = [key ++ "-0.html"] := by
      rw [List.filter_cons_of_pos (globStarHtml_dash0 key), hclean]
    have hchosen : outputFilenameFor ((key ++ "-0.html") :: d) key
        = key ++ "-" ++ "1" ++ ".html" := by
      unfold outputFilenameFor
      rw [if_pos hmem0, hfilter]
      simp only [List.length_singleton]
      rfl
    rw [hchosen]
    intro hmem
    rcases List.mem_cons.mp hmem with heq | hind
    · have hassoc : key ++ "-" ++ "1" ++ ".html" = key ++ "-1.html" := by
        rw [String.append_assoc, String.append_assoc]
        rfl
      rw [hassoc] at heq
      have := string_append_left_cancel heq
      exact absurd this (by decide)
    · exact hnod _ hind (globStarHtml_shape key "1")

/-- C9 witness: the amended uniqueness statement evaluated on an empty
directory and key "CA": the first chosen name is fresh, and the second
chosen name is fresh again after the first is written. -/
theorem naming_amended_witness :
    outputFilenameFor [] "CA" ∉ ([] : List String) ∧
    outputFilenameFor (outputFilenameFor [] "CA" :: []) "CA"
      ∉ (outputFilenameFor [] "CA" :: ([] : List String)) :=
  naming_amended [] "CA" rfl

end StoreLocator
